import Mathlib

/-!
Verification of `extract_droid.py`: a single-pass line-oriented parser that
folds newline-delimited JSON session records into Conversation structures
and computes summary statistics.

The embedding mirrors the Python source:
* `Json` models decoded JSON values (Python objects as returned by
  `json.loads`); Python `None` is represented by `Json.null`, which matches
  the behaviour of `dict.get` with a missing key and of JSON `null`.
* A `Line` of a session file is either blank, malformed (raises
  `json.JSONDecodeError`), or carries a decoded `Json` record.
* Per-line processing returns `Option ScanState`: `none` models an exception
  that is NOT `json.JSONDecodeError` escaping the inner `try` (for example an
  `AttributeError` from `obj.get` when `obj` is not a dict at line 51, the
  same for a non-dict `message` value at line 59, or a `TypeError` from
  `'\n'.join` at line 108 when a text value is not a string).  Such an
  exception is caught by the per-file handler (lines 139-141), which skips
  the whole file.
* A `SessionFile` whose `content` is `none` models a file whose open/read
  raises (an I/O error); it is likewise caught at file granularity.
-/

set_option autoImplicit false

namespace Droid

/-- A decoded JSON value (the result of `json.loads`).  Python `None`
(from JSON `null` or a missing-key `dict.get`) is `null`.  Numbers are
modelled as integers; only their truthiness matters here. -/
inductive Json where
  | null
  | bool (b : Bool)
  | num (n : Int)
  | str (s : String)
  | arr (items : List Json)
  | obj (fields : List (String × Json))

/-- Python truthiness of a decoded JSON value (`if x:`). -/
def Json.truthy : Json → Bool
  | .null => false
  | .bool b => b
  | .num n => n != 0
  | .str s => s ≠ ""
  | .arr items => !items.isEmpty
  | .obj fields => !fields.isEmpty

/-- First-match key lookup in an object's field list (Python dicts have
unique keys, so first-match is exact for values produced by `json.loads`). -/
def lookupField : List (String × Json) → String → Option Json
  | [], _ => none
  | (k, v) :: rest, key => if k = key then some v else lookupField rest key

/-- Models `obj.get(key, default)` on a value known to be a dict: the default is
used only when the key is absent (a stored `null` is returned as stored). -/
def jgetD (j : Json) (key : String) (default : Json) : Json :=
  match j with
  | .obj fields =>
    match lookupField fields key with
    | some v => v
    | none => default
  | _ => default

/-- Models `obj.get(key)` on a dict: missing keys give Python `None` (= `null`). -/
def jget (j : Json) (key : String) : Json :=
  jgetD j key .null

/-- Python `j == s` for a string literal `s`: true exactly when `j` is that
string (comparison with any other type is `False`, never an error). -/
def isStrEq (j : Json) (s : String) : Bool :=
  match j with
  | .str t => t = s
  | _ => false

/-- The value `j` as a Python `str`, when it is one. -/
def Json.asString : Json → Option String
  | .str s => some s
  | _ => none

/-- Whether a decoded value is a JSON object (a Python dict). -/
def Json.isObj : Json → Bool
  | .obj _ => true
  | _ => false

/-- Whether a decoded value is neither a JSON array nor a JSON object. -/
def Json.isAtom : Json → Bool
  | .arr _ => false
  | .obj _ => false
  | _ => true

/-- One entry of `tool_uses` (lines 95-99). -/
structure ToolUse where
  id : Json
  name : Json
  input : Json

/-- One entry of `tool_results` (lines 102-105). -/
structure ToolPayload where
  tool_use_id : Json
  content : Json

/-- The per-message dict built at lines 70-119.  Optional Python dict keys
are modelled as `Option`/list fields where `none`/`[]` means the key is
absent: `thinking` is set only when truthy (line 110), `tool_uses` and
`tool_results` only when non-empty (lines 113-117), `todos` only when a
`todo_state` record attaches it (line 124). -/
structure Message where
  role : String
  content : String
  timestamp : Json
  thinking : Option Json
  tool_uses : List ToolUse
  tool_results : List ToolPayload
  todos : Option Json

/-- One output conversation (lines 130-137). -/
structure Conversation where
  messages : List Message
  source : String
  session_id : String
  session_title : Json
  session_owner : Json
  source_file : String

/-- Per-file scan state (lines 39-42): the growing message list and the
sticky session fields, all initialised to `None`/empty. -/
structure ScanState where
  messages : List Message
  session_title : Json
  session_owner : Json

/-- Accumulator of the content-block loop (lines 77-80): `texts` collects
raw `text` values (joined only afterwards, line 108, where a non-string
raises `TypeError`), `thinking` is overwritten by each thinking block. -/
structure BlockAcc where
  texts : List Json
  tool_uses : List ToolUse
  tool_results : List ToolPayload
  thinking : Json

/-- One content-block dispatch step (lines 82-105).  Non-dict items are
skipped; unknown block types are ignored. -/
def processBlock (acc : BlockAcc) (item : Json) : BlockAcc :=
  match item with
  | .obj _ =>
    let t := jget item "type"
    if isStrEq t "text" then
      { acc with texts := acc.texts ++ [jgetD item "text" (.str "")] }
    else if isStrEq t "thinking" then
      { acc with thinking := jget item "thinking" }
    else if isStrEq t "tool_use" then
      { acc with tool_uses := acc.tool_uses ++
          [⟨jget item "id", jget item "name", jget item "input"⟩] }
    else if isStrEq t "tool_result" then
      { acc with tool_results := acc.tool_results ++
          [⟨jget item "tool_use_id", jget item "content"⟩] }
    else acc
  | _ => acc

/-- Lines 65-67: the record's `content` used as a block list — a list is
taken as is, a truthy non-list is wrapped as a one-element list, a falsy
non-list becomes the empty list. -/
def blocksOf (message : Json) : List Json :=
  match jgetD message "content" (.arr []) with
  | .arr items => items
  | other => if other.truthy then [other] else []

/-- Models `'\n'.join(text_content)` (line 108): `none` models the `TypeError`
raised when some collected text value is not a string. -/
def joinTexts (texts : List Json) : Option String :=
  (texts.mapM Json.asString).map (String.intercalate "\n")

/-- Lines 58-119 for a record already known to have a `user`/`assistant`
role: build the Message dict.  `none` models the `TypeError` from the join. -/
def buildMessage (obj : Json) (message : Json) (role : String) : Option Message :=
  let acc := (blocksOf message).foldl processBlock ⟨[], [], [], .null⟩
  (joinTexts acc.texts).map (fun contentStr =>
    { role := role
      content := contentStr
      timestamp := jget obj "timestamp"
      thinking := if acc.thinking.truthy then some acc.thinking else none
      tool_uses := acc.tool_uses
      tool_results := acc.tool_results
      todos := none })

/-- Lines 121-124: attach a `todo_state` payload to the last appended
message, only when that message has no `todos` key yet; a no-op on an
empty message list. -/
def attachTodos : List Message → Json → List Message
  | [], _ => []
  | [m], payload =>
    if m.todos.isSome then [m] else [{ m with todos := some payload }]
  | m :: rest, payload => m :: attachTodos rest payload

/-- The Python role value as a `String` (only reached when the role equals
the string `"user"` or `"assistant"`). -/
def roleString (role : Json) : String :=
  match role with
  | .str s => s
  | _ => ""

/-- Dispatch of one decoded record (lines 51-124).  `none` models an
exception other than `json.JSONDecodeError` escaping to the per-file
handler: `obj.get` on a non-dict record (line 51), `message.get` on a
non-dict `message` value (line 59), or the join `TypeError` (line 108). -/
def processRecord (st : ScanState) (obj : Json) : Option ScanState :=
  if obj.isObj then
    if isStrEq (jget obj "type") "session_start" then
      some { st with
             session_title := jgetD obj "title" (.str "New Session")
             session_owner := jget obj "owner" }
    else if isStrEq (jget obj "type") "message" then
      if (jgetD obj "message" (.obj [])).isObj then
        if isStrEq (jget (jgetD obj "message" (.obj [])) "role") "user" ||
           isStrEq (jget (jgetD obj "message" (.obj [])) "role") "assistant" then
          (buildMessage obj (jgetD obj "message" (.obj []))
              (roleString (jget (jgetD obj "message" (.obj [])) "role"))).map
            (fun m => { st with messages := st.messages ++ [m] })
        else
          some st
      else none
    else if isStrEq (jget obj "type") "todo_state" then
      some { st with messages := attachTodos st.messages (jget obj "todos") }
    else
      some st
  else none

/-- One physical line of a session file, classified by the outcome of
`line.strip()` / `json.loads(line)`: blank lines are skipped (lines 46-47),
malformed lines raise `json.JSONDecodeError`, which is caught and skipped
(lines 126-127), and the rest decode to a `Json` record. -/
inductive Line where
  | blank
  | malformed
  | record (j : Json)

def Line.isMalformed : Line → Bool
  | .malformed => true
  | _ => false

/-- Lines 45-127: process one line.  Blank and malformed lines leave the
state unchanged (`continue`); decoded records are dispatched. -/
def processLine (st : ScanState) (l : Line) : Option ScanState :=
  match l with
  | .blank => some st
  | .malformed => some st
  | .record j => processRecord st j

/-- The per-file line loop (lines 44-127): fold all lines, aborting the
file on the first uncaught exception. -/
def scanLines (st : ScanState) : List Line → Option ScanState
  | [] => some st
  | l :: rest =>
    match processLine st l with
    | none => none
    | some st2 => scanLines st2 rest

/-- One session file: its stem (`session_id`), its path string
(`source_file`), and its content — `none` when opening or reading the file
raises (handled by lines 139-141). -/
structure SessionFile where
  stem : String
  path : String
  content : Option (List Line)

/-- Initial per-file scan state (lines 39-42). -/
def initState : ScanState := ⟨[], .null, .null⟩

/-- Lines 37-141 for a single file: scan it, and emit a Conversation only
when at least one message was extracted (lines 129-137).  `none` covers the
I/O-error path, the uncaught-exception path and the empty-messages drop. -/
def processFile (f : SessionFile) : Option Conversation :=
  match f.content with
  | none => none
  | some lines =>
    match scanLines initState lines with
    | none => none
    | some st =>
      if st.messages.isEmpty then none
      else some { messages := st.messages
                  source := "droid"
                  session_id := f.stem
                  session_title := st.session_title
                  session_owner := st.session_owner
                  source_file := f.path }

/-- The function `extract_droid_sessions` over a given list of session files (the glob
result): each file contributes at most one Conversation, failing files are
skipped. -/
def extract_droid_sessions (files : List SessionFile) : List Conversation :=
  files.filterMap processFile

/-! Summary statistics computed in `main` (lines 172-179). -/

/-- Line 172: `sum(len(c['messages']) for c in conversations)`. -/
def total_messages (cs : List Conversation) : Nat :=
  (cs.map (fun c => c.messages.length)).sum

/-- Line 173: `sum(1 for c ... for m ... if m['role'] == 'user')`. -/
def user_messages (cs : List Conversation) : Nat :=
  ((cs.map Conversation.messages).flatten.filter (fun m => m.role = "user")).length

/-- Line 174: `sum(1 for c ... for m ... if m['role'] == 'assistant')`. -/
def assistant_messages (cs : List Conversation) : Nat :=
  ((cs.map Conversation.messages).flatten.filter (fun m => m.role = "assistant")).length

/-- Lines 175-177: conversations with a message carrying a `tool_uses` or
`tool_results` key (present exactly when non-empty, lines 113-117). -/
def with_tools (cs : List Conversation) : Nat :=
  (cs.filter (fun c => c.messages.any
    (fun m => !m.tool_uses.isEmpty || !m.tool_results.isEmpty))).length

/-- Lines 178-179: conversations with a message carrying a `thinking` key. -/
def with_thinking (cs : List Conversation) : Nat :=
  (cs.filter (fun c => c.messages.any (fun m => m.thinking.isSome))).length

/-! Claim-side (specification) definitions, written from the spec's words and
compared against the extractor above. -/

/-- Spec-side: a line yielding a `message`-type record whose role is `user`
or `assistant` (the records counted by the spec's conversation-size law). -/
def qualifies : Line → Bool
  | .record j =>
    isStrEq (jget j "type") "message" &&
      (isStrEq (jget (jgetD j "message" (.obj [])) "role") "user" ||
       isStrEq (jget (jgetD j "message" (.obj [])) "role") "assistant")
  | _ => false

/-- Spec-side: the `text` values of the `text`-type content blocks of a
block list, in block order (missing `text` keys read as `""`). -/
def textsOf : List Json → List Json
  | [] => []
  | b :: rest =>
    (match b with
     | .obj _ => if isStrEq (jget b "type") "text" then [jgetD b "text" (.str "")] else []
     | _ => []) ++ textsOf rest

/-- Spec-side: the `thinking` values of the `thinking`-type content blocks
of a block list, in block order. -/
def thinkingVals : List Json → List Json
  | [] => []
  | b :: rest =>
    (match b with
     | .obj _ => if isStrEq (jget b "type") "thinking" then [jget b "thinking"] else []
     | _ => []) ++ thinkingVals rest

/-- The decoded record of a line when it is a `session_start` record. -/
def startRecordOf : Line → Option Json
  | .record j => if isStrEq (jget j "type") "session_start" then some j else none
  | _ => none

/-- The last `session_start` record among a file's lines, if any. -/
def lastSessionStart : List Line → Option Json
  | [] => none
  | l :: rest =>
    match lastSessionStart rest with
    | some j => some j
    | none => startRecordOf l

/-- Spec-side recomputation: total message count across all conversations. -/
def spec_total_messages : List Conversation → Nat
  | [] => 0
  | c :: rest => c.messages.length + spec_total_messages rest

/-- Spec-side recomputation: count of user-role messages. -/
def spec_user_messages : List Conversation → Nat
  | [] => 0
  | c :: rest => c.messages.countP (fun m => m.role = "user") + spec_user_messages rest

/-- Spec-side recomputation: count of assistant-role messages. -/
def spec_assistant_messages : List Conversation → Nat
  | [] => 0
  | c :: rest => c.messages.countP (fun m => m.role = "assistant") + spec_assistant_messages rest

/-- Spec-side recomputation: conversations containing at least one message
with a non-empty `tool_uses` or `tool_results` field. -/
def spec_with_tools : List Conversation → Nat
  | [] => 0
  | c :: rest =>
    (if ∃ m ∈ c.messages, m.tool_uses.length ≠ 0 ∨ m.tool_results.length ≠ 0 then 1 else 0) +
      spec_with_tools rest

/-- Spec-side recomputation: conversations containing at least one message
with a `thinking` field. -/
def spec_with_thinking : List Conversation → Nat
  | [] => 0
  | c :: rest =>
    (if ∃ m ∈ c.messages, m.thinking.isSome then 1 else 0) + spec_with_thinking rest

/-! Concrete records and files used as counterexamples and witnesses. -/

/-- A `text` content block. -/
def textBlock (s : String) : Json := .obj [("type", .str "text"), ("text", .str s)]

/-- A `thinking` content block. -/
def thinkingBlock (v : Json) : Json := .obj [("type", .str "thinking"), ("thinking", v)]

/-- The `message` value of a user message with the given `content` value. -/
def userMessageVal (content : Json) : Json :=
  .obj [("role", .str "user"), ("content", content)]

/-- A `message`-type record of a user message with the given `content`. -/
def messageRecord (content : Json) : Json :=
  .obj [("type", .str "message"), ("message", userMessageVal content)]

/-- A `session_start` record with a title. -/
def startRecord (title : String) : Json :=
  .obj [("type", .str "session_start"), ("title", .str title)]

/-- A `todo_state` record with a `todos` payload. -/
def todoRecord (p : Json) : Json :=
  .obj [("type", .str "todo_state"), ("todos", p)]

/-- A session file with two `session_start` records (titles "A" then "B")
followed by one valid user message. -/
def twoStartFile : SessionFile :=
  ⟨"s", "s.jsonl",
   some [.record (startRecord "A"), .record (startRecord "B"),
         .record (messageRecord (.arr [textBlock "hi"]))]⟩

/-- The single message extracted from `twoStartFile` and `cleanRecordFile`. -/
def hiMessage : Message :=
  { role := "user", content := "hi", timestamp := .null,
    thinking := none, tool_uses := [], tool_results := [], todos := none }

/-- The Conversation produced by `twoStartFile`. -/
def twoStartConv : Conversation :=
  { messages := [hiMessage], source := "droid", session_id := "s",
    session_title := .str "B", session_owner := .null, source_file := "s.jsonl" }

/-- A session file whose first line decodes to a JSON array (a corrupt
record that is valid JSON but not an object), followed by a valid message. -/
def corruptRecordFile : SessionFile :=
  ⟨"s", "s.jsonl",
   some [.record (.arr []), .record (messageRecord (.arr [textBlock "hi"]))]⟩

/-- The same file without the corrupt line. -/
def cleanRecordFile : SessionFile :=
  ⟨"s", "s.jsonl", some [.record (messageRecord (.arr [textBlock "hi"]))]⟩

/-- A session file whose open or read raises an I/O error. -/
def ioErrorFile : SessionFile := ⟨"bad", "bad.jsonl", none⟩

/-- The `message` value of a message whose thinking blocks are `"x"` then
the empty string. -/
def falsyThinkingVal : Json :=
  userMessageVal (.arr [thinkingBlock (.str "x"), thinkingBlock (.str "")])

/-- The `message` value of a message whose `content` is a single dict (a
`text` block) rather than a list. -/
def dictContentVal : Json := userMessageVal (textBlock "a")

/-- The `message` value of a message whose thinking blocks are `"x"` then
`"y"`. -/
def xyThinkingVal : Json :=
  userMessageVal (.arr [thinkingBlock (.str "x"), thinkingBlock (.str "y")])

/-- The `message` value of a message whose `content` is the plain JSON
string `"hello"`. -/
def strContentVal : Json := userMessageVal (.str "hello")

/-! Helper lemmas. -/

theorem isStrEq_ne {t : Json} {a b : String} (h : isStrEq t a = true) (hne : b ≠ a) :
    isStrEq t b = false := by
  cases t with
  | str s =>
    simp only [isStrEq, decide_eq_true_eq] at h
    subst h
    exact decide_eq_false (fun hab => hne hab.symm)
  | null => rfl
  | bool b => rfl
  | num n => rfl
  | arr items => rfl
  | obj fields => rfl

theorem attachTodos_length (msgs : List Message) (p : Json) :
    (attachTodos msgs p).length = msgs.length := by
  induction msgs with
  | nil => rfl
  | cons m rest ih =>
    cases rest with
    | nil =>
      simp only [attachTodos]
      split <;> rfl
    | cons r rs =>
      simpa [attachTodos] using ih

theorem processRecord_length {st : ScanState} {j : Json} {st' : ScanState}
    (h : processRecord st j = some st') :
    st'.messages.length = st.messages.length + (if qualifies (.record j) then 1 else 0) := by
  unfold processRecord at h
  by_cases hobj : j.isObj = true
  · rw [if_pos hobj] at h
    by_cases h1 : isStrEq (jget j "type") "session_start" = true
    · rw [if_pos h1] at h
      have hne : isStrEq (jget j "type") "message" = false :=
        isStrEq_ne h1 (show "message" ≠ "session_start" by decide)
      have hq : qualifies (.record j) = false := by
        simp [qualifies, hne]
      cases h
      simp [hq]
    · rw [if_neg h1] at h
      by_cases h2 : isStrEq (jget j "type") "message" = true
      · rw [if_pos h2] at h
        by_cases h3 : (jgetD j "message" (.obj [])).isObj = true
        · rw [if_pos h3] at h
          by_cases h4 : (isStrEq (jget (jgetD j "message" (.obj [])) "role") "user" ||
              isStrEq (jget (jgetD j "message" (.obj [])) "role") "assistant") = true
          · rw [if_pos h4] at h
            rw [Option.map_eq_some'] at h
            obtain ⟨m, _, hm⟩ := h
            have hq : qualifies (.record j) = true := by
              simp only [qualifies, h2, Bool.true_and]
              exact h4
            rw [← hm]
            simp [hq]
          · rw [if_neg h4] at h
            have h4' : (isStrEq (jget (jgetD j "message" (.obj [])) "role") "user" ||
                isStrEq (jget (jgetD j "message" (.obj [])) "role") "assistant") = false := by
              simpa using h4
            have hq : qualifies (.record j) = false := by
              simp [qualifies, h4']
            cases h
            simp [hq]
        · rw [if_neg h3] at h
          exact absurd h (by simp)
      · rw [if_neg h2] at h
        have h2' : isStrEq (jget j "type") "message" = false := by
          simpa using h2
        have hq : qualifies (.record j) = false := by
          simp [qualifies, h2']
        by_cases h5 : isStrEq (jget j "type") "todo_state" = true
        · rw [if_pos h5] at h
          cases h
          simp [hq, attachTodos_length]
        · rw [if_neg h5] at h
          cases h
          simp [hq]
  · rw [if_neg hobj] at h
    exact absurd h (by simp)

theorem processLine_length {st : ScanState} {l : Line} {st' : ScanState}
    (h : processLine st l = some st') :
    st'.messages.length = st.messages.length + (if qualifies l then 1 else 0) := by
  cases l with
  | blank => cases h; simp [qualifies]
  | malformed => cases h; simp [qualifies]
  | record j => exact processRecord_length h

theorem scanLines_length (lines : List Line) :
    ∀ st st', scanLines st lines = some st' →
      st'.messages.length = st.messages.length + lines.countP qualifies := by
  induction lines with
  | nil =>
    intro st st' h
    cases h
    simp [List.countP_nil]
  | cons l rest ih =>
    intro st st' h
    unfold scanLines at h
    cases hp : processLine st l with
    | none => rw [hp] at h; exact absurd h (by simp)
    | some st2 =>
      rw [hp] at h
      have h2 := ih st2 st' h
      have h1 := processLine_length hp
      rw [List.countP_cons]
      by_cases hq : qualifies l = true <;> simp [hq] at h1 ⊢ <;> omega

/-! Claim theorems. -/

/-- C1: for every session file whose scan completes without an uncaught
exception, a Conversation is emitted if and only if the file yields at
least one `message`-type record whose role is `user` or `assistant`, and
when it does, exactly one Conversation is emitted and its `messages`
length equals the count of such records. -/
theorem conversation_iff_qualifying (f : SessionFile) (lines : List Line) (st : ScanState)
    (hc : f.content = some lines) (hs : scanLines initState lines = some st) :
    ((processFile f).isSome ↔ 0 < lines.countP qualifies) ∧
    (∀ conv, processFile f = some conv → conv.messages.length = lines.countP qualifies) := by
  have hlen : st.messages.length = lines.countP qualifies := by
    simpa [initState] using scanLines_length lines initState st hs
  have hpf : processFile f =
      if st.messages.isEmpty then none
      else some { messages := st.messages
                  source := "droid"
                  session_id := f.stem
                  session_title := st.session_title
                  session_owner := st.session_owner
                  source_file := f.path } := by
    unfold processFile
    rw [hc]
    simp only [hs]
  constructor
  · rw [hpf]
    by_cases he : st.messages.isEmpty = true
    · rw [if_pos he]
      have h0 : st.messages.length = 0 := by
        simpa [List.isEmpty_iff_length_eq_zero] using he
      simp only [Option.isSome_none, Bool.false_eq_true, false_iff]
      omega
    · rw [if_neg he]
      have h0 : st.messages.length ≠ 0 := by
        simpa [List.isEmpty_iff_length_eq_zero] using he
      simp only [Option.isSome_some, true_iff]
      omega
  · intro conv hconv
    rw [hpf] at hconv
    by_cases he : st.messages.isEmpty = true
    · rw [if_pos he] at hconv
      exact absurd hconv (by simp)
    · rw [if_neg he] at hconv
      cases hconv
      simpa using hlen

/-- Witness for C1 at a concrete one-message file. -/
theorem conversation_iff_qualifying_witness :
    (processFile cleanRecordFile).isSome = true ∧
    ∀ conv, processFile cleanRecordFile = some conv → conv.messages.length = 1 := by
  have h := conversation_iff_qualifying cleanRecordFile
    [.record (messageRecord (.arr [textBlock "hi"]))]
    { messages := [{ role := "user", content := "hi", timestamp := .null,
                     thinking := none, tool_uses := [], tool_results := [], todos := none }]
      session_title := .null
      session_owner := .null }
    rfl rfl
  refine ⟨h.1.mpr (by decide), fun conv hconv => ?_⟩
  rw [h.2 conv hconv]
  rfl

/-- C2 counterexample: in a file whose `session_start` records carry titles
"A" then "B", the emitted Conversation's `session_title` is "B" — the later
record overwrote the first, so "first occurrence wins" fails. -/
theorem second_session_start_overwrites_title :
    (processFile twoStartFile).map Conversation.session_title = some (Json.str "B") ∧
    Json.str "B" ≠ Json.str "A" := by
  refine ⟨rfl, fun h => ?_⟩
  injection h with h2
  exact absurd h2 (by decide)

/-- Per-record effect on the sticky session fields: a `session_start`
record rewrites both, every other successfully processed record leaves
them unchanged. -/
theorem processRecord_startFields {st : ScanState} {j : Json} {st2 : ScanState}
    (h : processRecord st j = some st2) :
    (match startRecordOf (.record j) with
     | some r => st2.session_title = jgetD r "title" (.str "New Session") ∧
                 st2.session_owner = jget r "owner"
     | none => st2.session_title = st.session_title ∧
               st2.session_owner = st.session_owner) := by
  unfold processRecord at h
  by_cases hobj : j.isObj = true
  · rw [if_pos hobj] at h
    by_cases h1 : isStrEq (jget j "type") "session_start" = true
    · rw [if_pos h1] at h
      simp only [startRecordOf, h1, if_true]
      cases h
      exact ⟨rfl, rfl⟩
    · rw [if_neg h1] at h
      simp only [startRecordOf, h1, if_false]
      by_cases h2 : isStrEq (jget j "type") "message" = true
      · rw [if_pos h2] at h
        by_cases h3 : (jgetD j "message" (.obj [])).isObj = true
        · rw [if_pos h3] at h
          by_cases h4 : (isStrEq (jget (jgetD j "message" (.obj [])) "role") "user" ||
              isStrEq (jget (jgetD j "message" (.obj [])) "role") "assistant") = true
          · rw [if_pos h4] at h
            rw [Option.map_eq_some'] at h
            obtain ⟨m, _, hm⟩ := h
            rw [← hm]
            exact ⟨rfl, rfl⟩
          · rw [if_neg h4] at h
            cases h
            exact ⟨rfl, rfl⟩
        · rw [if_neg h3] at h
          exact absurd h (by simp)
      · rw [if_neg h2] at h
        by_cases h5 : isStrEq (jget j "type") "todo_state" = true
        · rw [if_pos h5] at h
          cases h
          exact ⟨rfl, rfl⟩
        · rw [if_neg h5] at h
          cases h
          exact ⟨rfl, rfl⟩
  · rw [if_neg hobj] at h
    exact absurd h (by simp)

/-- Scan-level effect on the sticky session fields: they equal the fields
of the last `session_start` record, or stay at their initial values. -/
theorem scanLines_startFields (lines : List Line) :
    ∀ st st', scanLines st lines = some st' →
      (match lastSessionStart lines with
       | some r => st'.session_title = jgetD r "title" (.str "New Session") ∧
                   st'.session_owner = jget r "owner"
       | none => st'.session_title = st.session_title ∧
                 st'.session_owner = st.session_owner) := by
  induction lines with
  | nil =>
    intro st st' h
    cases h
    exact ⟨rfl, rfl⟩
  | cons l rest ih =>
    intro st st' h
    unfold scanLines at h
    cases hp : processLine st l with
    | none => rw [hp] at h; exact absurd h (by simp)
    | some st2 =>
      rw [hp] at h
      have hrest := ih st2 st' h
      have hline : (match startRecordOf l with
          | some r => st2.session_title = jgetD r "title" (.str "New Session") ∧
                      st2.session_owner = jget r "owner"
          | none => st2.session_title = st.session_title ∧
                    st2.session_owner = st.session_owner) := by
        cases l with
        | blank => cases hp; exact ⟨rfl, rfl⟩
        | malformed => cases hp; exact ⟨rfl, rfl⟩
        | record j => exact processRecord_startFields hp
      cases hls : lastSessionStart rest with
      | some r =>
        rw [hls] at hrest
        simp only [lastSessionStart, hls]
        exact hrest
      | none =>
        rw [hls] at hrest
        simp only [lastSessionStart, hls]
        cases hsr : startRecordOf l with
        | some r =>
          rw [hsr] at hline
          exact ⟨hrest.1.trans hline.1, hrest.2.trans hline.2⟩
        | none =>
          rw [hsr] at hline
          exact ⟨hrest.1.trans hline.1, hrest.2.trans hline.2⟩

/-- C2 (amended): `session_title` and `session_owner` come from the LAST
`session_start` record of the file (later records overwrite earlier ones);
when the file has none they stay `null`. -/
theorem session_start_fields_last_wins (f : SessionFile) (lines : List Line)
    (conv : Conversation) (hc : f.content = some lines)
    (hp : processFile f = some conv) :
    conv.session_title = (match lastSessionStart lines with
      | some r => jgetD r "title" (.str "New Session")
      | none => Json.null) ∧
    conv.session_owner = (match lastSessionStart lines with
      | some r => jget r "owner"
      | none => Json.null) := by
  have hpf0 : processFile f =
      (match scanLines initState lines with
       | none => none
       | some st =>
         if st.messages.isEmpty then none
         else some { messages := st.messages
                     source := "droid"
                     session_id := f.stem
                     session_title := st.session_title
                     session_owner := st.session_owner
                     source_file := f.path }) := by
    unfold processFile
    rw [hc]
  rw [hpf0] at hp
  cases hs : scanLines initState lines with
  | none => rw [hs] at hp; exact absurd hp (by simp)
  | some st =>
    rw [hs] at hp
    have hp' : (if st.messages.isEmpty then none
        else some { messages := st.messages
                    source := "droid"
                    session_id := f.stem
                    session_title := st.session_title
                    session_owner := st.session_owner
                    source_file := f.path }) = some conv := hp
    by_cases he : st.messages.isEmpty = true
    · rw [if_pos he] at hp'; exact absurd hp' (by simp)
    · rw [if_neg he] at hp'
      cases hp'
      have hf := scanLines_startFields lines initState st hs
      cases hls : lastSessionStart lines with
      | some r =>
        rw [hls] at hf
        exact hf
      | none =>
        rw [hls] at hf
        exact hf

/-- Witness for C2 (amended) at the two-`session_start` file. -/
theorem session_start_fields_last_wins_witness :
    twoStartConv.session_title = Json.str "B" ∧
    twoStartConv.session_owner = Json.null := by
  have h := session_start_fields_last_wins twoStartFile
    [.record (startRecord "A"), .record (startRecord "B"),
     .record (messageRecord (.arr [textBlock "hi"]))]
    twoStartConv rfl rfl
  exact ⟨h.1.trans rfl, h.2.trans rfl⟩

/-- C3 counterexample: `corruptRecordFile` holds one corrupt record line (a
valid-JSON array, so `obj.get('type')` raises an uncaught `AttributeError`)
followed by a valid `message` record; the whole file is discarded and the
valid record appears in no Conversation, although the same record alone
(`cleanRecordFile`) yields one. -/
theorem nonobject_record_aborts_file :
    processFile corruptRecordFile = none ∧
    (processFile cleanRecordFile).map (fun c => c.messages.length) = some 1 :=
  ⟨rfl, rfl⟩

/-- A line that raises `json.JSONDecodeError` is skipped: removing it from
the line stream does not change the scan result. -/
theorem scanLines_malformed (st : ScanState) (pre post : List Line) :
    scanLines st (pre ++ Line.malformed :: post) = scanLines st (pre ++ post) := by
  induction pre generalizing st with
  | nil => rfl
  | cons p pre' ih =>
    simp only [List.cons_append, scanLines]
    cases hp : processLine st p with
    | none => rfl
    | some st2 => exact ih st2

/-- A record that is not a JSON object raises an uncaught error. -/
theorem processRecord_nonobj (st : ScanState) (j : Json) (hj : j.isObj = false) :
    processRecord st j = none := by
  unfold processRecord
  rw [hj]
  simp

/-- A line decoding to a non-object JSON value aborts the whole file scan,
wherever it occurs. -/
theorem scanLines_nonobj (st : ScanState) (pre post : List Line) (j : Json)
    (hj : j.isObj = false) :
    scanLines st (pre ++ Line.record j :: post) = none := by
  induction pre generalizing st with
  | nil =>
    simp only [List.nil_append, scanLines, processLine]
    rw [processRecord_nonobj st j hj]
  | cons p pre' ih =>
    simp only [List.cons_append, scanLines]
    cases hp : processLine st p with
    | none => rfl
    | some st2 => exact ih st2

/-- Each file's contribution to the output is independent of the other
files around it. -/
theorem extract_append_decompose (pres posts : List SessionFile) (f : SessionFile) :
    extract_droid_sessions (pres ++ f :: posts) =
      extract_droid_sessions pres ++ (processFile f).toList ++
        extract_droid_sessions posts := by
  simp only [extract_droid_sessions, List.filterMap_append, List.filterMap_cons]
  cases processFile f <;> simp

/-- C3 (amended): failure containment is line-granular exactly for lines
that fail JSON decoding, and file-granular otherwise: a malformed-JSON line
never affects the rest of its file, a decoded line that is not a JSON
object aborts its whole file, and a failing file never affects the
Conversations contributed by the other files. -/
theorem failure_containment_granularity (st : ScanState) (pre post : List Line)
    (j : Json) (f : SessionFile) (pres posts : List SessionFile)
    (hj : j.isObj = false) :
    scanLines st (pre ++ Line.malformed :: post) = scanLines st (pre ++ post) ∧
    scanLines st (pre ++ Line.record j :: post) = none ∧
    extract_droid_sessions (pres ++ f :: posts) =
      extract_droid_sessions pres ++ (processFile f).toList ++
        extract_droid_sessions posts :=
  ⟨scanLines_malformed st pre post, scanLines_nonobj st pre post j hj,
   extract_append_decompose pres posts f⟩

/-- Witness for C3 (amended) at concrete lines and files. -/
theorem failure_containment_granularity_witness :
    scanLines initState ([] ++ Line.malformed :: []) = scanLines initState ([] ++ []) ∧
    scanLines initState ([] ++ Line.record (.arr []) :: []) = none ∧
    extract_droid_sessions ([] ++ cleanRecordFile :: []) =
      extract_droid_sessions [] ++ (processFile cleanRecordFile).toList ++
        extract_droid_sessions [] :=
  failure_containment_granularity initState [] [] (.arr []) cleanRecordFile [] [] rfl

/-- C4: a non-blank line that fails JSON decoding is skipped silently and
processing continues with the next line: deleting every malformed line from
a file's line stream leaves the scan result unchanged, so malformed JSON on
one line never prevents later valid lines from being parsed. -/
theorem malformed_lines_skipped (st : ScanState) (lines : List Line) :
    scanLines st (lines.filter (fun l => !l.isMalformed)) = scanLines st lines := by
  induction lines generalizing st with
  | nil => rfl
  | cons l rest ih =>
    cases l with
    | malformed =>
      have hf : (Line.malformed :: rest).filter (fun l => !l.isMalformed) =
          rest.filter (fun l => !l.isMalformed) := by
        simp [Line.isMalformed]
      rw [hf]
      exact ih st
    | blank =>
      have hf : (Line.blank :: rest).filter (fun l => !l.isMalformed) =
          Line.blank :: rest.filter (fun l => !l.isMalformed) := by
        simp [Line.isMalformed]
      rw [hf]
      exact ih st
    | record j =>
      have hf : (Line.record j :: rest).filter (fun l => !l.isMalformed) =
          Line.record j :: rest.filter (fun l => !l.isMalformed) := by
        simp [Line.isMalformed]
      rw [hf]
      simp only [scanLines]
      cases hp : processLine st (.record j) with
      | none => rfl
      | some st2 => exact ih st2

/-- C5: a file whose open or read raises an I/O error is skipped entirely
and contributes nothing, while every other file of the directory still
produces its Conversation exactly as if the failing file were absent. -/
theorem io_error_file_isolated (pre post : List SessionFile) (f : SessionFile)
    (hf : f.content = none) :
    extract_droid_sessions (pre ++ f :: post) = extract_droid_sessions (pre ++ post) := by
  have hnone : processFile f = none := by
    unfold processFile
    rw [hf]
  simp [extract_droid_sessions, List.filterMap_append, List.filterMap_cons, hnone]

/-- Witness for C5: an unreadable file between two good files changes
nothing. -/
theorem io_error_file_isolated_witness :
    extract_droid_sessions ([cleanRecordFile] ++ ioErrorFile :: [twoStartFile]) =
      extract_droid_sessions ([cleanRecordFile] ++ [twoStartFile]) :=
  io_error_file_isolated [cleanRecordFile] [twoStartFile] ioErrorFile rfl

/-- Per-block effect on the collected raw text values. -/
theorem processBlock_texts (acc : BlockAcc) (b : Json) :
    (processBlock acc b).texts = acc.texts ++ textsOf [b] := by
  cases b with
  | obj fields =>
    by_cases h1 : isStrEq (jget (Json.obj fields) "type") "text" = true
    · simp [processBlock, textsOf, h1]
    · by_cases h2 : isStrEq (jget (Json.obj fields) "type") "thinking" = true
      · simp [processBlock, textsOf, h1, h2]
      · by_cases h3 : isStrEq (jget (Json.obj fields) "type") "tool_use" = true
        · simp [processBlock, textsOf, h1, h2, h3]
        · by_cases h4 : isStrEq (jget (Json.obj fields) "type") "tool_result" = true
          · simp [processBlock, textsOf, h1, h2, h3, h4]
          · simp [processBlock, textsOf, h1, h2, h3, h4]
  | null => simp [processBlock, textsOf]
  | bool v => simp [processBlock, textsOf]
  | num n => simp [processBlock, textsOf]
  | str s => simp [processBlock, textsOf]
  | arr items => simp [processBlock, textsOf]

/-- Per-block effect on the running thinking value. -/
theorem processBlock_thinking (acc : BlockAcc) (b : Json) :
    (processBlock acc b).thinking = (thinkingVals [b]).getLastD acc.thinking := by
  cases b with
  | obj fields =>
    by_cases h1 : isStrEq (jget (Json.obj fields) "type") "text" = true
    · have h2 : isStrEq (jget (Json.obj fields) "type") "thinking" = false :=
        isStrEq_ne h1 (by decide)
      simp [processBlock, thinkingVals, h1, h2]
    · by_cases h2 : isStrEq (jget (Json.obj fields) "type") "thinking" = true
      · simp [processBlock, thinkingVals, h1, h2]
      · by_cases h3 : isStrEq (jget (Json.obj fields) "type") "tool_use" = true
        · simp [processBlock, thinkingVals, h1, h2, h3]
        · by_cases h4 : isStrEq (jget (Json.obj fields) "type") "tool_result" = true
          · simp [processBlock, thinkingVals, h1, h2, h3, h4]
          · simp [processBlock, thinkingVals, h1, h2, h3, h4]
  | null => simp [processBlock, thinkingVals]
  | bool v => simp [processBlock, thinkingVals]
  | num n => simp [processBlock, thinkingVals]
  | str s => simp [processBlock, thinkingVals]
  | arr items => simp [processBlock, thinkingVals]

theorem getLastD_append {α : Type} (l1 l2 : List α) (d : α) :
    (l1 ++ l2).getLastD d = l2.getLastD (l1.getLastD d) := by
  induction l1 generalizing d with
  | nil => rfl
  | cons a l1' ih =>
    rw [List.cons_append, List.getLastD_cons, List.getLastD_cons]
    exact ih a

/-- The block-loop accumulator collects exactly the `text` values of the
`text`-type blocks, in order. -/
theorem foldl_texts (blocks : List Json) :
    ∀ acc : BlockAcc, (blocks.foldl processBlock acc).texts = acc.texts ++ textsOf blocks := by
  induction blocks with
  | nil => intro acc; simp [textsOf]
  | cons b rest ih =>
    intro acc
    rw [List.foldl_cons, ih (processBlock acc b), processBlock_texts]
    have hsplit : textsOf (b :: rest) = textsOf [b] ++ textsOf rest := by
      simp [textsOf]
    rw [hsplit, List.append_assoc]

/-- The block-loop thinking value is the last of the `thinking` values
(or the initial value if there are none). -/
theorem foldl_thinking (blocks : List Json) :
    ∀ acc : BlockAcc,
      (blocks.foldl processBlock acc).thinking = (thinkingVals blocks).getLastD acc.thinking := by
  induction blocks with
  | nil => intro acc; simp [thinkingVals]
  | cons b rest ih =>
    intro acc
    rw [List.foldl_cons, ih (processBlock acc b)]
    have hsplit : thinkingVals (b :: rest) = thinkingVals [b] ++ thinkingVals rest := by
      simp [thinkingVals]
    rw [hsplit, getLastD_append, processBlock_thinking]

/-- C6: for every successfully built Message, `content` equals the
newline-joined concatenation of the `text` values of all `text`-type
content blocks of the record's content list, in block order (and so the
empty string when there are none). -/
theorem content_joins_text_blocks (obj message : Json) (role : String) (m : Message)
    (h : buildMessage obj message role = some m) :
    some m.content =
      ((textsOf (blocksOf message)).mapM Json.asString).map (String.intercalate "\n") := by
  have ht : ((blocksOf message).foldl processBlock ⟨[], [], [], .null⟩).texts
      = textsOf (blocksOf message) := by
    simpa using foldl_texts (blocksOf message) ⟨[], [], [], .null⟩
  unfold buildMessage at h
  rw [Option.map_eq_some'] at h
  obtain ⟨s, hs, hm⟩ := h
  rw [← hm]
  show some s = _
  rw [← hs]
  unfold joinTexts
  rw [ht]

/-- Witness for C6: blocks `text "a"` then `text "b"` join to `"a"`,
newline, `"b"`. -/
theorem content_joins_text_blocks_witness :
    some "a\nb" =
      ((textsOf (blocksOf (userMessageVal (.arr [textBlock "a", textBlock "b"])))).mapM
        Json.asString).map (String.intercalate "\n") :=
  content_joins_text_blocks (messageRecord (.arr [textBlock "a", textBlock "b"]))
    (userMessageVal (.arr [textBlock "a", textBlock "b"])) "user"
    { role := "user", content := "a\nb", timestamp := .null,
      thinking := none, tool_uses := [], tool_results := [], todos := none } rfl

/-- C7 counterexample: with thinking blocks `"x"` then `""`, the record
contains thinking-type blocks but the built Message has NO `thinking`
field (the claim requires the field to be present with the last value
`""`): the final `if thinking:` guard drops falsy values. -/
theorem falsy_last_thinking_drops_field :
    (buildMessage (.obj []) falsyThinkingVal "user").map Message.thinking = some none ∧
    thinkingVals (blocksOf falsyThinkingVal) = [Json.str "x", Json.str ""] :=
  ⟨rfl, rfl⟩

/-- C7 (amended): the Message has a `thinking` field exactly when the
`thinking` value of the LAST `thinking`-type content block is truthy, and
the field then holds that last value (last wins). -/
theorem thinking_last_truthy (obj message : Json) (role : String) (m : Message)
    (h : buildMessage obj message role = some m) :
    m.thinking =
      (if ((thinkingVals (blocksOf message)).getLastD Json.null).truthy
       then some ((thinkingVals (blocksOf message)).getLastD Json.null)
       else none) := by
  have hth : ((blocksOf message).foldl processBlock ⟨[], [], [], .null⟩).thinking
      = (thinkingVals (blocksOf message)).getLastD Json.null := by
    simpa using foldl_thinking (blocksOf message) ⟨[], [], [], .null⟩
  unfold buildMessage at h
  rw [Option.map_eq_some'] at h
  obtain ⟨s, _, hm⟩ := h
  rw [← hm]
  simp [hth]

/-- Witness for C7 (amended): thinking blocks `"x"` then `"y"` give the
field value `"y"`. -/
theorem thinking_last_truthy_witness :
    (some (Json.str "y") : Option Json) =
      (if ((thinkingVals (blocksOf xyThinkingVal)).getLastD Json.null).truthy
       then some ((thinkingVals (blocksOf xyThinkingVal)).getLastD Json.null)
       else none) :=
  thinking_last_truthy (.obj []) xyThinkingVal "user"
    { role := "user", content := "", timestamp := .null,
      thinking := some (.str "y"), tool_uses := [], tool_results := [], todos := none } rfl

/-- The function `attachTodos` walks past every message before the last one. -/
theorem attachTodos_cons (a : Message) (rest : List Message) (p : Json)
    (h : rest ≠ []) :
    attachTodos (a :: rest) p = a :: attachTodos rest p := by
  cases rest with
  | nil => exact absurd rfl h
  | cons b bs => rfl

/-- C8: a `todo_state` record replaces the message list by
`attachTodos messages payload`, and `attachTodos` is a no-op on an empty
list, attaches the payload to the last message when that message has no
`todos` field, and leaves everything unchanged when it already has one. -/
theorem todo_state_attachment (st : ScanState) (obj p : Json)
    (ms : List Message) (m : Message)
    (hobj : obj.isObj = true)
    (ht : isStrEq (jget obj "type") "todo_state" = true) :
    processRecord st obj =
      some { st with messages := attachTodos st.messages (jget obj "todos") } ∧
    attachTodos [] p = [] ∧
    (m.todos = none →
      attachTodos (ms ++ [m]) p = ms ++ [{ m with todos := some p }]) ∧
    (m.todos.isSome = true → attachTodos (ms ++ [m]) p = ms ++ [m]) := by
  refine ⟨?_, rfl, ?_, ?_⟩
  · have hss : isStrEq (jget obj "type") "session_start" = false :=
      isStrEq_ne ht (by decide)
    have hmsg : isStrEq (jget obj "type") "message" = false :=
      isStrEq_ne ht (by decide)
    unfold processRecord
    simp [hobj, hss, hmsg, ht]
  · intro hnone
    induction ms with
    | nil => simp [attachTodos, hnone]
    | cons a ms' ih =>
      rw [List.cons_append, attachTodos_cons a (ms' ++ [m]) p (by simp), ih,
        List.cons_append]
  · intro hsome
    induction ms with
    | nil => simp [attachTodos, hsome]
    | cons a ms' ih =>
      rw [List.cons_append, attachTodos_cons a (ms' ++ [m]) p (by simp), ih]

/-- Witness for C8 at a concrete `todo_state` record and message list. -/
theorem todo_state_attachment_witness :
    processRecord initState (todoRecord (.str "p1")) =
      some { initState with
             messages := attachTodos initState.messages
               (jget (todoRecord (.str "p1")) "todos") } ∧
    attachTodos ([] ++ [hiMessage]) (.str "p1") =
      [] ++ [{ hiMessage with todos := some (.str "p1") }] := by
  have h := todo_state_attachment initState (todoRecord (.str "p1")) (.str "p1")
    [] hiMessage rfl rfl
  exact ⟨h.1, h.2.2.1 rfl⟩

/-- The `any` test of lines 175-177 agrees with the spec's "at least one
message with a non-empty `tool_uses` or `tool_results` field". -/
theorem tools_any_iff (msgs : List Message) :
    (msgs.any fun m => !m.tool_uses.isEmpty || !m.tool_results.isEmpty) = true ↔
      ∃ m ∈ msgs, m.tool_uses.length ≠ 0 ∨ m.tool_results.length ≠ 0 := by
  simp [List.any_eq_true, List.isEmpty_iff_length_eq_zero]

/-- C9: each of the five summary counters computed in `main` equals its
direct recomputation over the final Conversation sequence. -/
theorem summary_counters_recomputation (cs : List Conversation) :
    total_messages cs = spec_total_messages cs ∧
    user_messages cs = spec_user_messages cs ∧
    assistant_messages cs = spec_assistant_messages cs ∧
    with_tools cs = spec_with_tools cs ∧
    with_thinking cs = spec_with_thinking cs := by
  induction cs with
  | nil => exact ⟨rfl, rfl, rfl, rfl, rfl⟩
  | cons c rest ih =>
    obtain ⟨ih1, ih2, ih3, ih4, ih5⟩ := ih
    refine ⟨?_, ?_, ?_, ?_, ?_⟩
    · simp only [total_messages, spec_total_messages, List.map_cons, List.sum_cons] at ih1 ⊢
      omega
    · simp only [user_messages, spec_user_messages, List.map_cons, List.flatten_cons,
        List.filter_append, List.length_append, List.countP_eq_length_filter] at ih2 ⊢
      omega
    · simp only [assistant_messages, spec_assistant_messages, List.map_cons, List.flatten_cons,
        List.filter_append, List.length_append, List.countP_eq_length_filter] at ih3 ⊢
      omega
    · simp only [with_tools, spec_with_tools, List.filter_cons] at ih4 ⊢
      by_cases hq : (c.messages.any fun m => !m.tool_uses.isEmpty || !m.tool_results.isEmpty) = true
      · rw [if_pos hq, if_pos ((tools_any_iff c.messages).mp hq)]
        simp only [List.length_cons]
        omega
      · rw [if_neg hq, if_neg (fun hex => hq ((tools_any_iff c.messages).mpr hex))]
        omega
    · simp only [with_thinking, spec_with_thinking, List.filter_cons] at ih5 ⊢
      by_cases hq : (c.messages.any fun m => m.thinking.isSome) = true
      · rw [if_pos hq, if_pos (List.any_eq_true.mp hq)]
        simp only [List.length_cons]
        omega
      · rw [if_neg hq, if_neg (fun hex => hq (List.any_eq_true.mpr hex))]
        omega

/-- C10 counterexample: a `content` value that is a JSON object (non-list
and truthy, hence "non-empty non-list") is wrapped as a one-element list
but NOT skipped by the block dispatch — here the resulting content is
`"a"`, not the empty string the claim requires. -/
theorem dict_content_not_skipped :
    (jgetD dictContentVal "content" (.arr [])).isObj = true ∧
    (jgetD dictContentVal "content" (.arr [])).truthy = true ∧
    (buildMessage (messageRecord (textBlock "a")) dictContentVal "user").map
      Message.content = some "a" ∧
    "a" ≠ "" :=
  ⟨rfl, rfl, rfl, by decide⟩

/-- C10 (amended): for every `message` record whose `content` value is a
truthy value that is neither a list nor a dict, the value is wrapped as a
one-element block list, the non-dict item is skipped during block dispatch,
and the resulting Message.content is the empty string. -/
theorem atom_content_yields_empty (obj message : Json) (role : String)
    (h1 : (jgetD message "content" (.arr [])).isAtom = true)
    (h2 : (jgetD message "content" (.arr [])).truthy = true) :
    blocksOf message = [jgetD message "content" (.arr [])] ∧
    (buildMessage obj message role).map Message.content = some "" := by
  have hb : blocksOf message = [jgetD message "content" (.arr [])] := by
    unfold blocksOf
    generalize hg : jgetD message "content" (.arr []) = v at h1 h2 ⊢
    cases v with
    | arr items => simp [Json.isAtom] at h1
    | obj fields => simp [Json.isAtom] at h1
    | null => simp [Json.truthy] at h2
    | bool b => simp [h2]
    | num n => simp [h2]
    | str s => simp [h2]
  have hacc : ([jgetD message "content" (.arr [])].foldl processBlock ⟨[], [], [], .null⟩)
      = ⟨[], [], [], .null⟩ := by
    generalize hg : jgetD message "content" (.arr []) = v at h1 h2 ⊢
    cases v with
    | arr items => simp [Json.isAtom] at h1
    | obj fields => simp [Json.isAtom] at h1
    | null => rfl
    | bool b => rfl
    | num n => rfl
    | str s => rfl
  refine ⟨hb, ?_⟩
  unfold buildMessage
  rw [hb, hacc]
  rfl

/-- Witness for C10 (amended): `content` is the plain JSON string
`"hello"`; the resulting content is `""`. -/
theorem atom_content_yields_empty_witness :
    blocksOf strContentVal = [jgetD strContentVal "content" (.arr [])] ∧
    (buildMessage (messageRecord (.str "hello")) strContentVal "user").map
      Message.content = some "" :=
  atom_content_yields_empty (messageRecord (.str "hello")) strContentVal "user" rfl rfl

end Droid
